import Mathlib

/-!
Verification of the scoring and transfer logic of the Fantasy Football
Tracker.  The source tree ships the React frontend (src/frontend); the
FastAPI backend that REPORT.md places under backend/src/services is not
part of the tree, so backend behaviour is modelled from the specification
where the doc comment of a definition says so.  Monetary amounts are
integers (euros) and point totals are rationals.
-/

namespace FantasyTracker

/-- Player positions recognised by the application: the position selectors
of PlayerBrowser and FreeAgentTransfer offer exactly GK, DEF, MID and FWD. -/
inductive Position where
  | GK
  | DEF
  | MID
  | FWD
deriving DecidableEq, Repr

/-- A player as the transfer components see one: id, position and price
(transferService.ts, interface Player; club name and season stats are
irrelevant to the claims and omitted). -/
structure Player where
  id : Nat
  position : Position
  price : Int
deriving DecidableEq, Repr

/-- Net cost of a free-agent transfer as computed by the transfer dialog of
FreeAgentTransfer (TransferPage.tsx, lines 549-556): with a selected player
to drop the displayed cost is playerIn.price - playerOut.price, otherwise
it is playerIn.price alone. -/
def netCost (playerIn : Player) (playerOut : Option Player) : Int :=
  match playerOut with
  | some out => playerIn.price - out.price
  | none => playerIn.price

/-- The net-cost formula exactly as the spec words it: price of player_in
minus the price of player_out, the latter defaulting to 0 when no player_out
is given. -/
def netCostSpec (playerIn : Player) (playerOut : Option Player) : Int :=
  playerIn.price - (playerOut.map Player.price).getD 0

/-- The guard of handleExecuteTransfer (TransferPage.tsx, lines 313-321),
which the confirm-button disabled condition (lines 572-585) repeats: the
request proceeds to the transfer service unless the squad has at least 11
players and no player to drop is selected. -/
def handleExecuteTransferProceeds (squadSize : Nat) (playerOut : Option Player) : Bool :=
  !(decide (11 ≤ squadSize) && playerOut.isNone)

/-- Number of roster players with the given position; the frontend computes
the same counts in TeamDetailPage (playersByPosition, lines 189-194). -/
def countPos (roster : List Player) (p : Position) : Nat :=
  roster.countP (fun q => decide (q.position = p))

/-- Modelled from the spec: the Formation Validator lives in the backend
(backend/src/services, not under src/; TeamDetailPage only displays the
per-position minimum warnings).  Spec 4.3: violations are collected, never
short-circuited, one string per violated rule. -/
def formationViolations (roster : List Player) : List String :=
  (if countPos roster .GK = 1 then [] else ["GK count must be exactly 1"])
    ++ (if 3 ≤ countPos roster .DEF ∧ countPos roster .DEF ≤ 5 then []
        else ["DEF count must be between 3 and 5"])
    ++ (if 2 ≤ countPos roster .MID ∧ countPos roster .MID ≤ 5 then []
        else ["MID count must be between 2 and 5"])
    ++ (if 1 ≤ countPos roster .FWD ∧ countPos roster .FWD ≤ 3 then []
        else ["FWD count must be between 1 and 3"])
    ++ (if roster.length = 11 then [] else ["total starters must be 11"])

/-- Modelled from the spec: boolean validity of the backend Formation
Validator, true exactly when no rule is violated. -/
def formationValid (roster : List Player) : Bool :=
  (formationViolations roster).isEmpty

/-- Raw per-player per-matchday counters as the spec data model lists them
(spec section 3); the defensive/attacking counters carry no points in the
scoring algorithm of section 4.1 and are omitted. -/
structure PlayerMatchdayStats where
  minutesPlayed : Nat
  goals : Nat
  assists : Nat
  cleanSheet : Bool
  saves : Nat
  yellowCards : Nat
  redCards : Nat
  ownGoals : Nat
  penaltiesMissed : Nat
  penaltiesSaved : Nat
deriving DecidableEq, Repr

/-- Modelled from the spec: position-dependent goal weight of the backend
Matchday Scorer (spec 4.1 step 2): GK and DEF 6, MID 5, FWD 4. -/
def goalWeight : Position → ℚ
  | .GK => 6
  | .DEF => 6
  | .MID => 5
  | .FWD => 4

/-- Modelled from the spec: participation points of the backend Matchday
Scorer (spec 4.1 step 1): 1 if minutes are at least 60, else 1/2 if any
minutes were played, else 0. -/
def participationPoints (minutes : Nat) : ℚ :=
  if 60 ≤ minutes then 1
  else if 0 < minutes then 1 / 2
  else 0

/-- Modelled from the spec: the backend Matchday Scorer
(backend/src/services, not under src/), steps 1-10 of spec 4.1 summed with
no lower clamp. -/
def matchdayScore (pos : Position) (s : PlayerMatchdayStats) : ℚ :=
  participationPoints s.minutesPlayed
    + s.goals * goalWeight pos
    + s.assists * 3
    + (if s.cleanSheet ∧ (pos = .GK ∨ pos = .DEF) then 4 else 0)
    + (if pos = .GK then ((s.saves / 3 : Nat) : ℚ) else 0)
    + s.yellowCards * (-1)
    + s.redCards * (-3)
    + s.ownGoals * (-2)
    + s.penaltiesMissed * (-2)
    + (if pos = .GK then s.penaltiesSaved * (5 : ℚ) else 0)

/-- Error taxonomy of spec section 7; the backend returns these as typed
failures and the frontend surfaces their detail strings. -/
inductive TransferError where
  | ValidationError
  | FormationError
  | InsufficientBudgetError
  | StaleOfferError
  | NotFoundError
  | ExpiredOfferError
deriving DecidableEq, Repr

/-- A fantasy team as the free-agent settlement sees it: roster and total
budget.  Budget used is derived from roster prices exactly as
TeamDetailPage does (lines 185-186). -/
structure TeamState where
  roster : List Player
  totalBudget : Int
deriving DecidableEq, Repr

/-- Sum of roster prices, the budgetUsed computation of TeamDetailPage. -/
def budgetUsed (t : TeamState) : Int :=
  (t.roster.map Player.price).sum

/-- Remaining budget, total minus used, as in TeamDetailPage line 186. -/
def remainingBudget (t : TeamState) : Int :=
  t.totalBudget - budgetUsed t

/-- Ids of the players on a roster. -/
def rosterIds (t : TeamState) : List Nat :=
  t.roster.map Player.id

/-- Modelled from the spec: the backend free-agent transfer settlement
(backend/src/services/transfer_service.py, not under src/).  Spec 4.4:
valid only if player_in is owned by no team in the league; player_out is
mandatory once the squad holds 11 players (the policy of the free-agent
UI); fails with InsufficientBudgetError if the net cost exceeds the
remaining budget; fails with FormationError if the resulting roster fails
the Formation Validator; on success swaps the two players, the budget
debit following from the roster price sum.  The function is pure, so a
rejected request leaves the caller's state untouched and an identical
retry is the same application with the same result. -/
def executeFreeAgentTransfer (ownedInLeague : List Nat) (t : TeamState)
    (playerIn : Player) (playerOut : Option Player) : Except TransferError TeamState :=
  if playerIn.id ∈ ownedInLeague then .error .ValidationError
  else if 11 ≤ t.roster.length ∧ playerOut = none then .error .ValidationError
  else if ¬ (playerOut.all fun o => (rosterIds t).contains o.id) = true then
    .error .NotFoundError
  else if remainingBudget t < netCost playerIn playerOut then
    .error .InsufficientBudgetError
  else
    let newRoster := playerIn :: (match playerOut with
      | some o => t.roster.filter (fun q => q.id != o.id)
      | none => t.roster)
    if formationValid newRoster then
      .ok { roster := newRoster, totalBudget := t.totalBudget }
    else .error .FormationError

/-- Offer lifecycle states of a TransferOffer (spec section 3). -/
inductive OfferStatus where
  | pending
  | accepted
  | rejected
  | cancelled
  | expired
deriving DecidableEq, Repr

/-- The two peer-to-peer offer types (transferService.ts, offer_type). -/
inductive OfferType where
  | money
  | playerExchange
deriving DecidableEq, Repr

/-- A peer-to-peer transfer offer, the fields of the TransferOffer
interface of transferService.ts with teams and players referenced by id. -/
structure TransferOffer where
  id : Nat
  fromTeam : Nat
  toTeam : Nat
  playerRequested : Nat
  offerType : OfferType
  moneyOffered : Option Int
  playerOffered : Option Nat
  playerOut : Option Nat
  status : OfferStatus
  createdAt : Nat
  expiresAt : Nat
deriving DecidableEq, Repr

/-- A league team inside the peer-to-peer market: roster of player ids and
budget totals. -/
structure LeagueTeam where
  id : Nat
  roster : List Nat
  totalBudget : Int
  budgetSpent : Int
deriving DecidableEq, Repr

/-- Remaining budget of a league team. -/
def LeagueTeam.remaining (t : LeagueTeam) : Int :=
  t.totalBudget - t.budgetSpent

/-- The mutable market: all league teams and all offers. -/
structure MarketState where
  teams : List LeagueTeam
  offers : List TransferOffer
deriving DecidableEq, Repr

/-- Whether an offer mentions the given player, as requested or as the
offered exchange player. -/
def TransferOffer.references (o : TransferOffer) (pid : Nat) : Bool :=
  o.playerRequested == pid || o.playerOffered == some pid

/-- Whether an offer mentions any player of the list. -/
def TransferOffer.referencesAny (o : TransferOffer) (pids : List Nat) : Bool :=
  pids.any o.references

/-- Look an offer up by id. -/
def findOffer (s : MarketState) (offerId : Nat) : Option TransferOffer :=
  s.offers.find? (fun o => o.id == offerId)

/-- Look a league team up by id. -/
def findTeam (s : MarketState) (teamId : Nat) : Option LeagueTeam :=
  s.teams.find? (fun t => t.id == teamId)

/-- Whether the player offered in exchange, if any, is still on the
sender's roster. -/
def offeredStillOwned (o : TransferOffer) (fromT : LeagueTeam) : Bool :=
  o.playerOffered.all fromT.roster.contains

/-- The players an accepted offer moves between the two teams: the
requested player and, for an exchange, the offered player. -/
def transferredPlayers (o : TransferOffer) : List Nat :=
  o.playerRequested :: o.playerOffered.toList

/-- Money moved by an accepted offer: the offered amount for a money
offer, nothing for an exchange. -/
def acceptedMoney (o : TransferOffer) : Int :=
  if o.offerType = .money then o.moneyOffered.getD 0 else 0

/-- Modelled from the spec: the recipient team after settlement loses the
requested player, gains the exchange player if any, and is credited the
money. -/
def settledToTeam (o : TransferOffer) (toT : LeagueTeam) : LeagueTeam :=
  { toT with
      roster := (toT.roster.filter (fun p => p != o.playerRequested))
        ++ o.playerOffered.toList,
      budgetSpent := toT.budgetSpent - acceptedMoney o }

/-- Modelled from the spec: the sending team after settlement gains the
requested player, loses the offered exchange player and the dropped
player if any, and is debited the money. -/
def settledFromTeam (o : TransferOffer) (fromT : LeagueTeam) : LeagueTeam :=
  { fromT with
      roster := o.playerRequested ::
        (fromT.roster.filter fun p =>
          !(o.playerOffered == some p) && !(o.playerOut == some p)),
      budgetSpent := fromT.budgetSpent + acceptedMoney o }

/-- Modelled from the spec: the per-offer status update of settlement.
The accepted pending offer becomes accepted and every other pending offer
referencing a transferred player is invalidated (cancelled); offers
already in a terminal state are never touched. -/
def settleOfferStatus (acceptedId : Nat) (transferred : List Nat)
    (o : TransferOffer) : TransferOffer :=
  if o.status ≠ .pending then o
  else if o.id = acceptedId then { o with status := .accepted }
  else if o.referencesAny transferred then { o with status := .cancelled }
  else o

/-- Modelled from the spec: the whole-market result of a successful
acceptance, both team mutations and all offer status updates in one step
(the all-or-nothing transaction of spec section 5). -/
def settleAccept (s : MarketState) (o : TransferOffer)
    (toT fromT : LeagueTeam) : MarketState :=
  { teams := s.teams.map fun t =>
      if t.id = toT.id then settledToTeam o toT
      else if t.id = fromT.id then settledFromTeam o fromT
      else t,
    offers := s.offers.map (settleOfferStatus o.id (transferredPlayers o)) }

/-- Modelled from the spec: the backend accept operation
(backend/src/services/transfer_service.py, not under src/).  Spec 4.4:
expiry is derived from the current time and overrides a stored pending
status; a non-pending offer is stale; acceptance re-validates the live
rosters and the buyer's budget, then settles atomically. -/
def acceptOffer (s : MarketState) (offerId now : Nat) :
    Except TransferError MarketState :=
  match findOffer s offerId with
  | none => .error .NotFoundError
  | some o =>
    if o.expiresAt ≤ now then .error .ExpiredOfferError
    else if o.status ≠ .pending then .error .StaleOfferError
    else
      match findTeam s o.toTeam, findTeam s o.fromTeam with
      | some toT, some fromT =>
        if o.playerRequested ∉ toT.roster then .error .StaleOfferError
        else if ¬ offeredStillOwned o fromT = true then .error .StaleOfferError
        else if o.offerType = .money ∧ fromT.remaining < o.moneyOffered.getD 0 then
          .error .InsufficientBudgetError
        else .ok (settleAccept s o toT fromT)
      | _, _ => .error .NotFoundError

/-- Modelled from the spec: the status update of reject and cancel, which
only moves the addressed offer and only out of pending. -/
def closePending (offerId : Nat) (newStatus : OfferStatus)
    (o : TransferOffer) : TransferOffer :=
  if o.status = .pending ∧ o.id = offerId then { o with status := newStatus }
  else o

/-- Modelled from the spec: the backend reject operation; a lapsed offer
is expired for it too, and it has no side effect on rosters. -/
def rejectOffer (s : MarketState) (offerId now : Nat) :
    Except TransferError MarketState :=
  match findOffer s offerId with
  | none => .error .NotFoundError
  | some o =>
    if o.expiresAt ≤ now then .error .ExpiredOfferError
    else if o.status ≠ .pending then .error .StaleOfferError
    else .ok { s with offers := s.offers.map (closePending offerId .rejected) }

/-- Modelled from the spec: the backend cancel operation, the sender-side
twin of reject. -/
def cancelOffer (s : MarketState) (offerId now : Nat) :
    Except TransferError MarketState :=
  match findOffer s offerId with
  | none => .error .NotFoundError
  | some o =>
    if o.expiresAt ≤ now then .error .ExpiredOfferError
    else if o.status ≠ .pending then .error .StaleOfferError
    else .ok { s with offers := s.offers.map (closePending offerId .cancelled) }

/-- The three offer-lifecycle operations a user can invoke. -/
inductive MarketOp where
  | accept (offerId : Nat)
  | reject (offerId : Nat)
  | cancel (offerId : Nat)

/-- Dispatch of a market operation at a given current time. -/
def applyMarketOp (s : MarketState) (op : MarketOp) (now : Nat) :
    Except TransferError MarketState :=
  match op with
  | .accept i => acceptOffer s i now
  | .reject i => rejectOffer s i now
  | .cancel i => cancelOffer s i now

/-- Modelled from the spec: the fixed TTL window added to the creation
time of a peer-to-peer offer (spec 4.4 fixes only that it is a constant;
this constant stands for it). -/
def offerTTL : Nat := 24

/-- Modelled from the spec: backend creation of a peer-to-peer offer
(backend/src/services/transfer_service.py, not under src/).  Spec 4.4:
money offers require money_offered above 0 and, when the sender's squad
is full (15, the squad cap), a dropped player; exchange offers require an
offered player from the sender's own roster; expires_at is creation time
plus the fixed TTL window. -/
def createOffer (now offerId : Nat) (sender : LeagueTeam)
    (toTeamId playerId : Nat) (otype : OfferType) (money : Option Int)
    (offeredId droppedId : Option Nat) : Except TransferError TransferOffer :=
  match otype with
  | .money =>
    match money with
    | none => .error .ValidationError
    | some m =>
      if m ≤ 0 then .error .ValidationError
      else if 15 ≤ sender.roster.length ∧ droppedId = none then
        .error .ValidationError
      else .ok
        { id := offerId, fromTeam := sender.id, toTeam := toTeamId,
          playerRequested := playerId, offerType := .money,
          moneyOffered := some m, playerOffered := none,
          playerOut := droppedId, status := .pending,
          createdAt := now, expiresAt := now + offerTTL }
  | .playerExchange =>
    match offeredId with
    | none => .error .ValidationError
    | some p =>
      if p ∈ sender.roster then
        .ok { id := offerId, fromTeam := sender.id, toTeam := toTeamId,
              playerRequested := playerId, offerType := .playerExchange,
              moneyOffered := none, playerOffered := some p,
              playerOut := droppedId, status := .pending,
              createdAt := now, expiresAt := now + offerTTL }
      else .error .ValidationError

/-- A roster entry of a FantasyTeam with its captaincy flags (spec
section 3; the is_captain and is_vice_captain flags of the Player
interface in LeagueTeamView). -/
structure RosterEntry where
  playerId : Nat
  isCaptain : Bool
  isViceCaptain : Bool
deriving DecidableEq, Repr

/-- A fantasy squad as the captaincy invariant sees it. -/
structure SquadState where
  entries : List RosterEntry
deriving DecidableEq, Repr

/-- Player ids of a squad. -/
def SquadState.ids (t : SquadState) : List Nat :=
  t.entries.map (·.playerId)

/-- Number of entries flagged captain. -/
def captainCount (t : SquadState) : Nat :=
  t.entries.countP (·.isCaptain)

/-- Number of entries flagged vice-captain. -/
def viceCaptainCount (t : SquadState) : Nat :=
  t.entries.countP (·.isViceCaptain)

/-- The FantasyTeam invariant of spec section 3 restricted to captaincy:
distinct players, at most one captain, at most one vice-captain, and no
player that is both. -/
def CaptainInvariant (t : SquadState) : Prop :=
  t.ids.Nodup ∧ captainCount t ≤ 1 ∧ viceCaptainCount t ≤ 1 ∧
    ∀ e ∈ t.entries, ¬(e.isCaptain = true ∧ e.isViceCaptain = true)

instance (t : SquadState) : Decidable (CaptainInvariant t) := by
  unfold CaptainInvariant; infer_instance

/-- Modelled from the spec: the backend add-player mutation
(backend/src/services, not under src/): a new roster entry starts with
both captaincy flags cleared; a duplicate player or a full squad (15, the
squad cap) leaves the team unchanged. -/
def addPlayer (t : SquadState) (pid : Nat) : SquadState :=
  if pid ∈ t.ids ∨ 15 ≤ t.entries.length then t
  else { entries := t.entries ++ [⟨pid, false, false⟩] }

/-- Modelled from the spec: the backend remove-player mutation simply
drops the entry of the given player. -/
def removePlayer (t : SquadState) (pid : Nat) : SquadState :=
  { entries := t.entries.filter (fun e => e.playerId != pid) }

/-- Modelled from the spec: the backend set-captain mutation behind
handleSetCaptain (TeamDetailPage.tsx, lines 147-156): making a player
captain moves the single captain flag to that player and strips a vice
flag the player may hold, and symmetrically for vice-captain, keeping
captain and vice-captain distinct. -/
def setCaptain (t : SquadState) (pid : Nat) (isVice : Bool) : SquadState :=
  if isVice then
    { entries := t.entries.map fun e =>
        { e with
            isViceCaptain := e.playerId == pid,
            isCaptain := e.isCaptain && e.playerId != pid } }
  else
    { entries := t.entries.map fun e =>
        { e with
            isCaptain := e.playerId == pid,
            isViceCaptain := e.isViceCaptain && e.playerId != pid } }

/-- Modelled from the spec: a transfer on the squad drops the outgoing
player and adds the incoming one with cleared flags. -/
def transferSwap (t : SquadState) (pidOut pidIn : Nat) : SquadState :=
  addPlayer (removePlayer t pidOut) pidIn

/-- A terminal TransferOffer status (spec section 3). -/
def TerminalStatus (st : OfferStatus) : Prop :=
  st = .accepted ∨ st = .rejected ∨ st = .cancelled ∨ st = .expired

/-- A concrete starting XI in a 1-4-4-2 shape. -/
def sampleXI : List Player :=
  [⟨1, .GK, 5⟩, ⟨2, .DEF, 5⟩, ⟨3, .DEF, 5⟩, ⟨4, .DEF, 5⟩, ⟨5, .DEF, 5⟩,
   ⟨6, .MID, 5⟩, ⟨7, .MID, 5⟩, ⟨8, .MID, 5⟩, ⟨9, .MID, 5⟩,
   ⟨10, .FWD, 5⟩, ⟨11, .FWD, 5⟩]

/-- A concrete starting XI with no goalkeeper (0-5-4-2). -/
def sampleNoGK : List Player :=
  [⟨1, .DEF, 5⟩, ⟨2, .DEF, 5⟩, ⟨3, .DEF, 5⟩, ⟨4, .DEF, 5⟩, ⟨5, .DEF, 5⟩,
   ⟨6, .MID, 5⟩, ⟨7, .MID, 5⟩, ⟨8, .MID, 5⟩, ⟨9, .MID, 5⟩,
   ⟨10, .FWD, 5⟩, ⟨11, .FWD, 5⟩]

/-- A team with an empty roster and a budget of 5. -/
def budgetTeam : TeamState := ⟨[], 5⟩

/-- A forward priced at 10, beyond budgetTeam's means. -/
def strikerIn : Player := ⟨1, .FWD, 10⟩

/-- A full-match appearance with no other events. -/
def fullMatchStats : PlayerMatchdayStats :=
  { minutesPlayed := 90, goals := 0, assists := 0, cleanSheet := false,
    saves := 0, yellowCards := 0, redCards := 0, ownGoals := 0,
    penaltiesMissed := 0, penaltiesSaved := 0 }

/-- League team one, owning players 10 and 11. -/
def teamOne : LeagueTeam := ⟨1, [10, 11], 100, 0⟩

/-- League team two, with an empty roster and full budget. -/
def teamTwo : LeagueTeam := ⟨2, [], 100, 0⟩

/-- A pending money offer of team two for player 10 of team one. -/
def offerA : TransferOffer :=
  ⟨1, 2, 1, 10, .money, some 50, none, none, .pending, 0, 100⟩

/-- A second pending money offer for the same player 10. -/
def offerB : TransferOffer :=
  ⟨2, 2, 1, 10, .money, some 20, none, none, .pending, 0, 100⟩

/-- A pending offer for player 11 whose expiry time 4 has passed. -/
def offerC : TransferOffer :=
  ⟨3, 2, 1, 11, .money, some 20, none, none, .pending, 0, 4⟩

/-- The concrete market the offer witnesses start from. -/
def market0 : MarketState := ⟨[teamOne, teamTwo], [offerA, offerB, offerC]⟩

/-- market0 after offer 1 is rejected at time 5. -/
def market0AfterReject : MarketState :=
  ⟨[teamOne, teamTwo],
   [⟨1, 2, 1, 10, .money, some 50, none, none, .rejected, 0, 100⟩,
    offerB, offerC]⟩

/-- market0 after offer 1 is accepted at time 5: player 10 moved to team
two, offer 1 accepted, the competing offer 2 cancelled. -/
def market0AfterAccept : MarketState :=
  ⟨[⟨1, [11], 100, -50⟩, ⟨2, [10], 100, 50⟩],
   [⟨1, 2, 1, 10, .money, some 50, none, none, .accepted, 0, 100⟩,
    ⟨2, 2, 1, 10, .money, some 20, none, none, .cancelled, 0, 100⟩,
    offerC]⟩

/-- A three-player squad with a captain and a distinct vice-captain. -/
def sampleSquad : SquadState :=
  ⟨[⟨1, true, false⟩, ⟨2, false, true⟩, ⟨3, false, false⟩]⟩

/-- The offer produced by creating a money offer of 50 at time 0 with
id 7 from teamTwo for player 10 of team 1. -/
def createdOffer7 : TransferOffer :=
  ⟨7, 2, 1, 10, .money, some 50, none, none, .pending, 0, 24⟩

/-- C2: for every free-agent transfer with incoming player playerIn and
optional outgoing player playerOut, the net cost computed by the transfer
dialog equals the spec formula price(player_in) minus price(player_out)
with the missing player_out defaulting to 0. -/
theorem netCost_matches_spec (playerIn : Player) (playerOut : Option Player) :
    netCost playerIn playerOut = netCostSpec playerIn playerOut := by
  cases playerOut <;> simp [netCost, netCostSpec]

/-- C3: at a squad size of 11 or more the free-agent request without a
selected player to drop is rejected by the handleExecuteTransfer guard,
below 11 it proceeds with or without one, and a request with a drop
selected always passes the guard. -/
theorem playerOut_required_at_eleven (squadSize : Nat) (playerOut : Option Player) :
    (11 ≤ squadSize → handleExecuteTransferProceeds squadSize none = false) ∧
    (squadSize < 11 → handleExecuteTransferProceeds squadSize playerOut = true) ∧
    (playerOut ≠ none → handleExecuteTransferProceeds squadSize playerOut = true) := by
  unfold handleExecuteTransferProceeds
  refine ⟨fun h => ?_, fun h => ?_, fun h => ?_⟩
  · simp [h]
  · simp [Nat.not_le.mpr h]
  · cases playerOut with
    | none => exact absurd rfl h
    | some p => simp

theorem playerOut_required_at_eleven_witness :
    handleExecuteTransferProceeds 11 none = false ∧
    handleExecuteTransferProceeds 5 none = true :=
  ⟨(playerOut_required_at_eleven 11 none).1 (by decide),
   (playerOut_required_at_eleven 5 none).2.1 (by decide)⟩

/-- C4: the formation check passes exactly when the goalkeeper count is 1,
defenders number 3 to 5, midfielders 2 to 5, forwards 1 to 3 and the
starters total 11; the concrete 1-4-4-2 lineup is valid, and the lineup
with no goalkeeper is invalid and reports the goalkeeper-count
violation. -/
theorem formation_rules_characterization :
    (∀ roster : List Player,
      formationValid roster = true ↔
        (countPos roster .GK = 1 ∧
          (3 ≤ countPos roster .DEF ∧ countPos roster .DEF ≤ 5) ∧
          (2 ≤ countPos roster .MID ∧ countPos roster .MID ≤ 5) ∧
          (1 ≤ countPos roster .FWD ∧ countPos roster .FWD ≤ 3) ∧
          roster.length = 11)) ∧
    formationValid sampleXI = true ∧
    formationValid sampleNoGK = false ∧
    "GK count must be exactly 1" ∈ formationViolations sampleNoGK := by
  refine ⟨fun roster => ?_, by decide, by decide, by decide⟩
  unfold formationValid formationViolations
  split_ifs <;> simp_all

/-- C9: a valid stats record with at least 60 minutes and no other events
scores exactly 1, and participation contributes 1 from 60 minutes on, 1/2
for a positive shorter appearance, and 0 for no minutes. -/
theorem matchday_score_participation (pos : Position) (s : PlayerMatchdayStats)
    (h60 : 60 ≤ s.minutesPlayed) (hg : s.goals = 0) (ha : s.assists = 0)
    (hcs : s.cleanSheet = false) (hsv : s.saves = 0) (hy : s.yellowCards = 0)
    (hr : s.redCards = 0) (ho : s.ownGoals = 0) (hpm : s.penaltiesMissed = 0)
    (hps : s.penaltiesSaved = 0) :
    matchdayScore pos s = 1 ∧
    ∀ m : Nat, (60 ≤ m → participationPoints m = 1) ∧
      (0 < m → m < 60 → participationPoints m = 1 / 2) ∧
      (m = 0 → participationPoints m = 0) := by
  constructor
  · cases pos <;>
      simp [matchdayScore, participationPoints, hg, ha, hcs, hsv, hy, hr,
        ho, hpm, hps, h60]
  · intro m
    refine ⟨fun h => by simp [participationPoints, h],
      fun h1 h2 => ?_, fun h => by simp [participationPoints, h]⟩
    simp [participationPoints, Nat.not_le.mpr h2, h1]

theorem matchday_score_participation_witness :
    60 ≤ fullMatchStats.minutesPlayed ∧ matchdayScore .MID fullMatchStats = 1 :=
  ⟨by decide,
   (matchday_score_participation .MID fullMatchStats (by decide) rfl rfl rfl
      rfl rfl rfl rfl rfl rfl).1⟩

/-- C1: a free-agent purchase whose net cost exceeds the remaining budget
is rejected with InsufficientBudgetError and yields no successor state, so
the roster and budget stay as they were and an identical retry fails the
same way; a request whose net cost is within the remaining budget passes
the budget check.  The hypotheses say the request is otherwise
well-formed: the player is a free agent, a drop is named once the squad
holds 11, and the named drop is on the roster. -/
theorem freeAgent_budget_rejection (owned : List Nat) (t : TeamState)
    (pin : Player) (pout : Option Player)
    (hFree : pin.id ∉ owned)
    (hOut : 11 ≤ t.roster.length → pout ≠ none)
    (hOwn : (pout.all fun o => (rosterIds t).contains o.id) = true) :
    (remainingBudget t < netCost pin pout →
      executeFreeAgentTransfer owned t pin pout = .error .InsufficientBudgetError ∧
      ∀ t2, executeFreeAgentTransfer owned t pin pout ≠ .ok t2) ∧
    (netCost pin pout ≤ remainingBudget t →
      executeFreeAgentTransfer owned t pin pout ≠ .error .InsufficientBudgetError) := by
  have h2 : ¬ (11 ≤ t.roster.length ∧ pout = none) := by
    rintro ⟨hlen, hnone⟩; exact hOut hlen hnone
  have h3 : ¬ ¬ (pout.all fun o => (rosterIds t).contains o.id) = true :=
    not_not_intro hOwn
  constructor
  · intro hlt
    constructor
    · unfold executeFreeAgentTransfer
      rw [if_neg hFree, if_neg h2, if_neg h3, if_pos hlt]
    · intro t2
      unfold executeFreeAgentTransfer
      rw [if_neg hFree, if_neg h2, if_neg h3, if_pos hlt]
      simp
  · intro hle
    unfold executeFreeAgentTransfer
    rw [if_neg hFree, if_neg h2, if_neg h3, if_neg (not_lt.mpr hle)]
    dsimp only
    split <;> simp

theorem freeAgent_budget_rejection_witness :
    remainingBudget budgetTeam < netCost strikerIn none ∧
    executeFreeAgentTransfer [] budgetTeam strikerIn none =
      .error .InsufficientBudgetError :=
  ⟨by decide,
   ((freeAgent_budget_rejection [] budgetTeam strikerIn none (by decide)
      (by decide) (by decide)).1 (by decide)).1⟩

theorem find_map_pred_invariant {α : Type} (f : α → α) (p : α → Bool)
    (hf : ∀ a, p (f a) = p a) (l : List α) :
    (l.map f).find? p = (l.find? p).map f := by
  induction l with
  | nil => rfl
  | cons a l ih =>
    rw [List.map_cons, List.find?_cons, List.find?_cons, hf]
    cases h : p a
    · simpa [h] using ih
    · simp [h]

theorem settleOfferStatus_id (aid : Nat) (tr : List Nat) (o : TransferOffer) :
    (settleOfferStatus aid tr o).id = o.id := by
  unfold settleOfferStatus; split_ifs <;> rfl

theorem settleOfferStatus_fix (aid : Nat) (tr : List Nat) (o : TransferOffer)
    (h : o.status ≠ .pending) : settleOfferStatus aid tr o = o := by
  simp [settleOfferStatus, h]

theorem settleOfferStatus_term (aid : Nat) (tr : List Nat) (o : TransferOffer)
    (h : (settleOfferStatus aid tr o).status ≠ o.status) :
    TerminalStatus (settleOfferStatus aid tr o).status := by
  unfold settleOfferStatus at h ⊢
  split_ifs at h ⊢ <;> simp_all [TerminalStatus]

theorem closePending_id (oid : Nat) (st : OfferStatus) (o : TransferOffer) :
    (closePending oid st o).id = o.id := by
  unfold closePending; split_ifs <;> rfl

theorem closePending_fix (oid : Nat) (st : OfferStatus) (o : TransferOffer)
    (h : o.status ≠ .pending) : closePending oid st o = o := by
  simp [closePending, h]

theorem closePending_status (oid : Nat) (st : OfferStatus) (o : TransferOffer) :
    closePending oid st o = o ∨
    (o.status = .pending ∧ (closePending oid st o).status = st) := by
  unfold closePending; split_ifs with h
  · exact Or.inr ⟨h.1, rfl⟩
  · exact Or.inl rfl

theorem closePending_term (oid : Nat) (st : OfferStatus) (hst : TerminalStatus st)
    (o : TransferOffer) (h : (closePending oid st o).status ≠ o.status) :
    TerminalStatus (closePending oid st o).status := by
  rcases closePending_status oid st o with heq | ⟨_, h2⟩
  · rw [heq] at h; exact absurd rfl h
  · rw [h2]; exact hst

theorem map_status_step (f : TransferOffer → TransferOffer)
    (hfix : ∀ o, o.status ≠ .pending → f o = o)
    (hterm : ∀ o, (f o).status ≠ o.status → TerminalStatus (f o).status)
    (l : List TransferOffer) (i : Nat) (hi : i < l.length)
    (hi2 : i < (l.map f).length) :
    ((l.get ⟨i, hi⟩).status ≠ .pending →
      (l.map f).get ⟨i, hi2⟩ = l.get ⟨i, hi⟩) ∧
    (((l.map f).get ⟨i, hi2⟩).status ≠ (l.get ⟨i, hi⟩).status →
      (l.get ⟨i, hi⟩).status = .pending ∧
        TerminalStatus ((l.map f).get ⟨i, hi2⟩).status) := by
  have hm : (l.map f).get ⟨i, hi2⟩ = f (l.get ⟨i, hi⟩) := by
    simp [List.get_eq_getElem, List.getElem_map]
  rw [hm]
  constructor
  · exact fun hne => hfix _ hne
  · intro hne
    refine ⟨?_, hterm _ hne⟩
    by_contra hp
    rw [hfix _ hp] at hne
    exact hne rfl

theorem acceptOffer_ok_elim {s : MarketState} {oid now : Nat} {s2 : MarketState}
    (h : acceptOffer s oid now = .ok s2) :
    ∃ o toT fromT, findOffer s oid = some o ∧ ¬ o.expiresAt ≤ now ∧
      o.status = .pending ∧ findTeam s o.toTeam = some toT ∧
      findTeam s o.fromTeam = some fromT ∧ o.playerRequested ∈ toT.roster ∧
      s2 = settleAccept s o toT fromT := by
  unfold acceptOffer at h
  split at h
  · exact absurd h (by simp)
  next o hfo =>
    split at h
    · exact absurd h (by simp)
    next hexp =>
      split at h
      · exact absurd h (by simp)
      next hpend =>
        split at h
        next toT fromT hTo hFrom =>
          split at h
          · exact absurd h (by simp)
          next hreq =>
            split at h
            · exact absurd h (by simp)
            next hown =>
              split at h
              · exact absurd h (by simp)
              next hmoney =>
                injection h with h
                exact ⟨o, toT, fromT, hfo, hexp, not_not.mp hpend, hTo, hFrom,
                  not_not.mp hreq, h.symm⟩
        next hmiss =>
          exact absurd h (by simp)

theorem rejectOffer_ok_elim {s : MarketState} {oid now : Nat} {s2 : MarketState}
    (h : rejectOffer s oid now = .ok s2) :
    s2 = { s with offers := s.offers.map (closePending oid .rejected) } := by
  unfold rejectOffer at h
  split at h
  · exact absurd h (by simp)
  · split at h
    · exact absurd h (by simp)
    · split at h
      · exact absurd h (by simp)
      · injection h with h
        exact h.symm

theorem cancelOffer_ok_elim {s : MarketState} {oid now : Nat} {s2 : MarketState}
    (h : cancelOffer s oid now = .ok s2) :
    s2 = { s with offers := s.offers.map (closePending oid .cancelled) } := by
  unfold cancelOffer at h
  split at h
  · exact absurd h (by simp)
  · split at h
    · exact absurd h (by simp)
    · split at h
      · exact absurd h (by simp)
      · injection h with h
        exact h.symm

/-- C5: an offer whose expiry time lies in the past cannot be accepted,
rejected or cancelled, whatever its stored status still says; each of the
three operations fails with ExpiredOfferError, expiry being derived from
the current time of the attempt. -/
theorem expired_offer_rejected (s : MarketState) (oid now : Nat)
    (o : TransferOffer) (hfo : findOffer s oid = some o)
    (hexp : o.expiresAt < now) :
    acceptOffer s oid now = .error .ExpiredOfferError ∧
    rejectOffer s oid now = .error .ExpiredOfferError ∧
    cancelOffer s oid now = .error .ExpiredOfferError := by
  have hle : o.expiresAt ≤ now := le_of_lt hexp
  refine ⟨?_, ?_, ?_⟩ <;>
    simp [acceptOffer, rejectOffer, cancelOffer, hfo, hle]

theorem expired_offer_rejected_witness :
    offerC.status = .pending ∧ offerC.expiresAt < 20 ∧
    acceptOffer market0 3 20 = .error .ExpiredOfferError :=
  ⟨by decide, by decide,
   (expired_offer_rejected market0 3 20 offerC rfl (by decide)).1⟩

/-- C6: under accept, reject and cancel an offer's status only ever moves
out of pending, and then only into accepted, rejected, cancelled or
expired; an offer already in a terminal state is never changed by any of
the three operations. -/
theorem offer_status_transitions (s : MarketState) (op : MarketOp) (now : Nat)
    (s2 : MarketState) (h : applyMarketOp s op now = .ok s2) :
    s2.offers.length = s.offers.length ∧
    ∀ i (hi : i < s.offers.length) (hi2 : i < s2.offers.length),
      ((s.offers.get ⟨i, hi⟩).status ≠ .pending →
        s2.offers.get ⟨i, hi2⟩ = s.offers.get ⟨i, hi⟩) ∧
      ((s2.offers.get ⟨i, hi2⟩).status ≠ (s.offers.get ⟨i, hi⟩).status →
        (s.offers.get ⟨i, hi⟩).status = .pending ∧
          TerminalStatus (s2.offers.get ⟨i, hi2⟩).status) := by
  cases op with
  | accept oid =>
    obtain ⟨o, toT, fromT, _, _, _, _, _, _, rfl⟩ := acceptOffer_ok_elim h
    refine ⟨by simp [settleAccept], ?_⟩
    intro i hi hi2
    exact map_status_step _ (fun o2 h2 => settleOfferStatus_fix _ _ _ h2)
      (fun o2 h2 => settleOfferStatus_term _ _ _ h2) s.offers i hi hi2
  | reject oid =>
    obtain rfl := rejectOffer_ok_elim h
    refine ⟨by simp, ?_⟩
    intro i hi hi2
    exact map_status_step _ (fun o2 h2 => closePending_fix _ _ _ h2)
      (fun o2 h2 => closePending_term _ _ (Or.inr (Or.inl rfl)) _ h2)
      s.offers i hi hi2
  | cancel oid =>
    obtain rfl := cancelOffer_ok_elim h
    refine ⟨by simp, ?_⟩
    intro i hi hi2
    exact map_status_step _ (fun o2 h2 => closePending_fix _ _ _ h2)
      (fun o2 h2 => closePending_term _ _ (Or.inr (Or.inr (Or.inl rfl))) _ h2)
      s.offers i hi hi2

theorem offer_status_transitions_witness :
    applyMarketOp market0 (.reject 1) 5 = .ok market0AfterReject ∧
    market0AfterReject.offers.length = market0.offers.length :=
  ⟨rfl,
   (offer_status_transitions market0 (.reject 1) 5 market0AfterReject rfl).1⟩

/-- C7: an offer that passes creation satisfies the type-specific checks,
a money offer having a positive amount and a dropped player whenever the
sender's squad is full, an exchange offer offering a player of the
sender's own roster; the created offer is pending and its expiry is the
creation time plus the fixed TTL window. -/
theorem createOffer_validates_and_sets_expiry (now offerId : Nat)
    (sender : LeagueTeam) (toTeamId playerId : Nat) (otype : OfferType)
    (money : Option Int) (offeredId droppedId : Option Nat) (o : TransferOffer)
    (h : createOffer now offerId sender toTeamId playerId otype money
      offeredId droppedId = .ok o) :
    (otype = .money → ∃ m, money = some m ∧ 0 < m ∧
      (15 ≤ sender.roster.length → droppedId ≠ none)) ∧
    (otype = .playerExchange → ∃ p, offeredId = some p ∧ p ∈ sender.roster) ∧
    o.status = .pending ∧ o.createdAt = now ∧ o.expiresAt = now + offerTTL := by
  cases otype with
  | money =>
    cases money with
    | none => exact absurd h (by simp [createOffer])
    | some m =>
      simp only [createOffer] at h
      split_ifs at h with h1 h2
      all_goals cases h
      exact ⟨fun _ => ⟨m, rfl, not_le.mp h1,
          fun hlen hnone => h2 ⟨hlen, hnone⟩⟩,
        fun hc => OfferType.noConfusion hc, rfl, rfl, rfl⟩
  | playerExchange =>
    cases offeredId with
    | none => exact absurd h (by simp [createOffer])
    | some p =>
      simp only [createOffer] at h
      split_ifs at h with h1
      all_goals cases h
      exact ⟨fun hc => OfferType.noConfusion hc, fun _ => ⟨p, rfl, h1⟩, rfl, rfl, rfl⟩

theorem createOffer_validates_and_sets_expiry_witness :
    createOffer 0 7 teamTwo 1 10 .money (some 50) none none =
      .ok createdOffer7 ∧
    createdOffer7.expiresAt = 0 + offerTTL :=
  ⟨rfl,
   (createOffer_validates_and_sets_expiry 0 7 teamTwo 1 10 .money (some 50)
      none none createdOffer7 rfl).2.2.2.2⟩

theorem captainInvariant_addPlayer (t : SquadState) (pid : Nat)
    (h : CaptainInvariant t) : CaptainInvariant (addPlayer t pid) := by
  unfold addPlayer
  split_ifs with hcond
  · exact h
  · push_neg at hcond
    obtain ⟨hnew, hlen⟩ := hcond
    obtain ⟨hnd, hc, hv, hflags⟩ := h
    refine ⟨?_, ?_, ?_, ?_⟩
    · simp only [SquadState.ids, List.map_append, List.map_cons, List.map_nil]
      rw [List.nodup_append]
      exact ⟨hnd, List.nodup_singleton _, by
        simpa [List.disjoint_singleton, SquadState.ids] using hnew⟩
    · simpa [captainCount, List.countP_append] using hc
    · simpa [viceCaptainCount, List.countP_append] using hv
    · intro e he
      rcases List.mem_append.mp he with h1 | h1
      · exact hflags e h1
      · simp only [List.mem_singleton] at h1
        subst h1
        simp


theorem captainInvariant_removePlayer (t : SquadState) (pid : Nat)
    (h : CaptainInvariant t) : CaptainInvariant (removePlayer t pid) := by
  obtain ⟨hnd, hc, hv, hflags⟩ := h
  have hsub : List.Sublist (t.entries.filter fun e => e.playerId != pid)
      t.entries := List.filter_sublist _
  refine ⟨?_, ?_, ?_, ?_⟩
  · exact List.Nodup.sublist (hsub.map _) hnd
  · exact le_trans (hsub.countP_le _) hc
  · exact le_trans (hsub.countP_le _) hv
  · intro e he
    exact hflags e (List.mem_of_mem_filter he)

theorem countP_eq_one_of_nodup_ids (l : List RosterEntry) (pid : Nat)
    (hl : (l.map (·.playerId)).Nodup) :
    l.countP (fun e => e.playerId == pid) ≤ 1 := by
  have h1 : l.countP (fun e => e.playerId == pid)
      = (l.map (·.playerId)).countP (· == pid) := by
    rw [List.countP_map]; rfl
  rw [h1]
  have h2 := List.nodup_iff_count_le_one.mp hl pid
  simpa [List.count] using h2

theorem captainInvariant_setCaptain (t : SquadState) (pid : Nat)
    (isVice : Bool) (h : CaptainInvariant t) :
    CaptainInvariant (setCaptain t pid isVice) := by
  obtain ⟨hnd, hc, hv, hflags⟩ := h
  cases isVice with
  | false =>
    simp only [setCaptain, Bool.false_eq_true, if_false]
    refine ⟨?_, ?_, ?_, ?_⟩
    · simp only [SquadState.ids, List.map_map]
      exact hnd
    · simp only [captainCount, List.countP_map]
      exact countP_eq_one_of_nodup_ids t.entries pid hnd
    · simp only [viceCaptainCount, List.countP_map]
      refine le_trans (List.countP_mono_left ?_) hv
      intro e _ he
      simp only [Function.comp] at he
      simp only [Bool.and_eq_true] at he
      exact he.1
    · intro e2 he2
      obtain ⟨e, _, rfl⟩ := List.mem_map.mp he2
      rintro ⟨h1, h2⟩
      simp only [Bool.and_eq_true] at h2
      have h3 := h2.2
      rw [beq_iff_eq] at h1
      rw [bne_iff_ne] at h3
      exact h3 h1
  | true =>
    simp only [setCaptain, if_true]
    refine ⟨?_, ?_, ?_, ?_⟩
    · simp only [SquadState.ids, List.map_map]
      exact hnd
    · simp only [captainCount, List.countP_map]
      refine le_trans (List.countP_mono_left ?_) hc
      intro e _ he
      simp only [Function.comp] at he
      simp only [Bool.and_eq_true] at he
      exact he.1
    · simp only [viceCaptainCount, List.countP_map]
      exact countP_eq_one_of_nodup_ids t.entries pid hnd
    · intro e2 he2
      obtain ⟨e, _, rfl⟩ := List.mem_map.mp he2
      rintro ⟨h1, h2⟩
      simp only [Bool.and_eq_true] at h1
      have h3 := h1.2
      rw [beq_iff_eq] at h2
      rw [bne_iff_ne] at h3
      exact h3 h2

/-- C10: each roster mutation of a fantasy team, adding a player,
removing a player, designating a captain or a vice-captain, and swapping
a player in a transfer, preserves the invariant that the squad has
distinct players, at most one captain, at most one vice-captain, and no
player that is captain and vice-captain at once. -/
theorem captain_invariant_preserved (t : SquadState)
    (pid pidOut pidIn : Nat) (isVice : Bool) (h : CaptainInvariant t) :
    CaptainInvariant (addPlayer t pid) ∧
    CaptainInvariant (removePlayer t pid) ∧
    CaptainInvariant (setCaptain t pid isVice) ∧
    CaptainInvariant (transferSwap t pidOut pidIn) :=
  ⟨captainInvariant_addPlayer t pid h,
   captainInvariant_removePlayer t pid h,
   captainInvariant_setCaptain t pid isVice h,
   captainInvariant_addPlayer _ pidIn (captainInvariant_removePlayer t pidOut h)⟩

theorem captain_invariant_preserved_witness :
    CaptainInvariant sampleSquad ∧
    CaptainInvariant (setCaptain sampleSquad 3 false) :=
  ⟨by decide,
   (captain_invariant_preserved sampleSquad 3 1 4 false (by decide)).2.2.1⟩

/-- C8: when a pending offer is accepted the requested player is moved
onto the buying team and off the selling team in the same settlement step
that marks the offer accepted, every other pending offer referencing a
transferred player is invalidated, and a later attempt to accept such an
invalidated competing offer for the same player fails with
StaleOfferError instead of transferring the player again. -/
theorem accept_invalidates_competing_offers
    (s : MarketState) (id1 id2 now now2 : Nat) (s2 : MarketState)
    (o1 o2 : TransferOffer) (toT fromT : LeagueTeam)
    (hfind1 : findOffer s id1 = some o1)
    (hfind2 : findOffer s id2 = some o2)
    (hTo : findTeam s o1.toTeam = some toT)
    (hFrom : findTeam s o1.fromTeam = some fromT)
    (hdiff : o1.fromTeam ≠ o1.toTeam)
    (hoffne : o1.playerOffered ≠ some o1.playerRequested)
    (hne : o2.id ≠ o1.id)
    (hpend2 : o2.status = .pending)
    (hsame : o2.playerRequested = o1.playerRequested)
    (hexp2 : now2 < o2.expiresAt)
    (hacc : acceptOffer s id1 now = .ok s2) :
    findOffer s2 id1 = some { o1 with status := .accepted } ∧
    (∃ fromT2, findTeam s2 o1.fromTeam = some fromT2 ∧
      o1.playerRequested ∈ fromT2.roster) ∧
    (∃ toT2, findTeam s2 o1.toTeam = some toT2 ∧
      o1.playerRequested ∉ toT2.roster) ∧
    (∀ o3 ∈ s.offers, o3.status = .pending → o3.id ≠ o1.id →
      o3.referencesAny (transferredPlayers o1) = true →
      { o3 with status := .cancelled } ∈ s2.offers) ∧
    findOffer s2 id2 = some { o2 with status := .cancelled } ∧
    acceptOffer s2 id2 now2 = .error .StaleOfferError := by
  obtain ⟨o, toT', fromT', hfo, hexp, hpend1, hTo', hFrom', hreq, rfl⟩ :=
    acceptOffer_ok_elim hacc
  rw [hfind1] at hfo
  injection hfo with hfo
  subst hfo
  rw [hTo] at hTo'
  injection hTo' with hTo'
  subst hTo'
  rw [hFrom] at hFrom'
  injection hFrom' with hFrom'
  subst hFrom'
  have hTo2 : s.teams.find? (fun t => t.id == o1.toTeam) = some toT := hTo
  have hFrom2 : s.teams.find? (fun t => t.id == o1.fromTeam) = some fromT := hFrom
  have hToId : toT.id = o1.toTeam := by
    simpa [beq_iff_eq] using List.find?_some hTo2
  have hFromId : fromT.id = o1.fromTeam := by
    simpa [beq_iff_eq] using List.find?_some hFrom2
  have hTF : ¬ fromT.id = toT.id := by
    rw [hToId, hFromId]; exact hdiff
  have hofind : ∀ n : Nat, findOffer (settleAccept s o1 toT fromT) n
      = (findOffer s n).map
        (settleOfferStatus o1.id (transferredPlayers o1)) := fun n =>
    find_map_pred_invariant _ _ (fun a => by rw [settleOfferStatus_id]) s.offers
  have htfind : ∀ n : Nat, findTeam (settleAccept s o1 toT fromT) n
      = (findTeam s n).map (fun t =>
          if t.id = toT.id then settledToTeam o1 toT
          else if t.id = fromT.id then settledFromTeam o1 fromT
          else t) := by
    intro n
    refine find_map_pred_invariant _ _ (fun a => ?_) s.teams
    by_cases h1 : a.id = toT.id
    · simp [h1, settledToTeam]
    · by_cases h2 : a.id = fromT.id
      · simp [h1, h2, settledFromTeam, hTF]
      · simp [h1, h2]
  have hFo1 : settleOfferStatus o1.id (transferredPlayers o1) o1
      = { o1 with status := .accepted } := by
    simp [settleOfferStatus, hpend1]
  have href2 : o2.referencesAny (transferredPlayers o1) = true := by
    simp [TransferOffer.referencesAny, transferredPlayers,
      TransferOffer.references, hsame]
  have hFo2 : settleOfferStatus o1.id (transferredPlayers o1) o2
      = { o2 with status := .cancelled } := by
    simp [settleOfferStatus, hpend2, hne, href2]
  have hfind2' : findOffer (settleAccept s o1 toT fromT) id2
      = some { o2 with status := .cancelled } := by
    rw [hofind, hfind2]
    exact congrArg some hFo2
  refine ⟨?_, ?_, ?_, ?_, hfind2', ?_⟩
  · rw [hofind, hfind1]
    exact congrArg some hFo1
  · refine ⟨settledFromTeam o1 fromT, ?_, ?_⟩
    · rw [htfind, hFrom]
      exact congrArg some (by simp [hTF])
    · simp only [settledFromTeam]
      exact List.mem_cons_self _ _
  · refine ⟨settledToTeam o1 toT, ?_, ?_⟩
    · rw [htfind, hTo]
      exact congrArg some (by simp)
    · simp only [settledToTeam]
      intro hmem
      rcases List.mem_append.mp hmem with hl | hr
      · have hb := (List.mem_filter.mp hl).2
        simp at hb
      · cases hcase : o1.playerOffered with
        | none => rw [hcase] at hr; simp at hr
        | some p =>
          rw [hcase] at hr
          simp at hr
          exact hoffne (by rw [hcase, hr])
  · intro o3 h3 hp3 hne3 href3
    have hFo3 : settleOfferStatus o1.id (transferredPlayers o1) o3
        = { o3 with status := .cancelled } := by
      simp [settleOfferStatus, hp3, hne3, href3]
    rw [← hFo3]
    exact List.mem_map_of_mem _ h3
  · simp [acceptOffer, hfind2', not_le.mpr hexp2]

theorem accept_invalidates_competing_offers_witness :
    offerB.status = .pending ∧
    acceptOffer market0 1 5 = .ok market0AfterAccept ∧
    acceptOffer market0AfterAccept 2 6 = .error .StaleOfferError :=
  ⟨rfl, rfl,
   (accept_invalidates_competing_offers market0 1 2 5 6 market0AfterAccept
      offerA offerB teamOne teamTwo rfl rfl rfl rfl (by decide) (by decide)
      (by decide) rfl rfl (by decide) rfl).2.2.2.2.2⟩

end FantasyTracker
